import Mathlib

/-!
Verification of the SpaceX launch-analytics dashboard (`spacex_dash_app.py`).

The program loads a CSV into a pandas DataFrame, drops rows with a missing
launch site, class (outcome) or payload mass, and serves two reactive views:
`update_pie` (success counts grouped by site, or success/failure counts for
one site) and `update_scatter` (records filtered by payload range and
optionally by site, projected to (payload, class) points).

We embed the table as a list of records whose fields are `Option`-valued:
`none` models a pandas NaN.  Pandas equality and order comparisons against
NaN are false, which the `Option` pattern matches below reproduce exactly.
Payload masses are embedded as rationals, outcomes (`class`) as integers.
-/

/-- One row of the CSV table.  Fields mirror the columns
`Launch Site`, `class`, `Payload Mass (kg)`, `Booster Version Category`;
`none` stands for a missing (NaN) cell. -/
structure LaunchRecord where
  launchSite : Option String
  cls : Option Int
  payloadMass : Option ℚ
  boosterCategory : Option String
  deriving DecidableEq, Repr

/-- Row predicate of the cleanup line
`spacex_df.dropna(subset=['Launch Site', 'class', 'Payload Mass (kg)'])`:
a row is kept iff site, class and payload are all present. -/
def cleanRecord (r : LaunchRecord) : Bool :=
  r.launchSite.isSome && r.cls.isSome && r.payloadMass.isSome

/-- The cleanup step: `dropna` keeps, in order, exactly the rows whose
site, class and payload are present. -/
def cleanup (df : List LaunchRecord) : List LaunchRecord :=
  df.filter cleanRecord

/-- The single error kind of the loader: the CSV file is absent. -/
inductive LoadError where
  | DataUnavailable
  deriving DecidableEq, Repr

/-- The load step (lines 52-58): if the file exists at `path` its rows are
read, otherwise `FileNotFoundError` (`DataUnavailable`) is raised.
The filesystem is abstracted as a partial map from paths to row lists. -/
def load (fs : String → Option (List LaunchRecord)) (path : String) :
    Except LoadError (List LaunchRecord) :=
  match fs path with
  | some rows => Except.ok rows
  | none => Except.error LoadError.DataUnavailable

/-- Load followed by cleanup: the value bound to `spacex_df` after line 61. -/
def loadTable (fs : String → Option (List LaunchRecord)) (path : String) :
    Except LoadError (List LaunchRecord) :=
  (load fs path).map cleanup

/-- All present payload masses of a table (column `Payload Mass (kg)`
with NaN skipped, as pandas `.min()`/`.max()` do). -/
def payloads (df : List LaunchRecord) : List ℚ :=
  df.filterMap (·.payloadMass)

/-- Minimum of a list of rationals, `none` on the empty list. -/
def listMin : List ℚ → Option ℚ
  | [] => none
  | p :: ps =>
    match listMin ps with
    | none => some p
    | some q => some (min p q)

/-- Maximum of a list of rationals, `none` on the empty list. -/
def listMax : List ℚ → Option ℚ
  | [] => none
  | p :: ps =>
    match listMax ps with
    | none => some p
    | some q => some (max p q)

/-- `payload_min` (line 64): smallest observed payload mass. -/
def payload_min (df : List LaunchRecord) : Option ℚ :=
  listMin (payloads df)

/-- `payload_max` (line 65): largest observed payload mass. -/
def payload_max (df : List LaunchRecord) : Option ℚ :=
  listMax (payloads df)

/-- Lexicographic comparison of character lists, by Unicode code point. -/
def charListLe : List Char → List Char → Bool
  | [], _ => true
  | _ :: _, [] => false
  | a :: as, b :: bs =>
    if a < b then true else if b < a then false else charListLe as bs

/-- Lexicographic string comparison (the order pandas sorts site names by). -/
def strLe (s t : String) : Bool :=
  charListLe s.data t.data

/-- Integer comparison as a Bool (the order pandas sorts outcome values by). -/
def intLe (a b : Int) : Bool :=
  decide (a ≤ b)

/-- The distinct elements of `l`, sorted by `le` (pandas `groupby` produces
its groups keyed by the sorted distinct key values). -/
def sortedKeys {α : Type} [DecidableEq α] (le : α → α → Bool) (l : List α) :
    List α :=
  List.insertionSort (fun a b => le a b = true) l.dedup

/-- `df.groupby(key)[...].count()`: one `(key value, group size)` pair per
distinct present key value, in sorted key order; rows whose key is missing
belong to no group (pandas drops NaN keys). -/
def groupbyCount {α : Type} [DecidableEq α] (le : α → α → Bool)
    (df : List LaunchRecord) (key : LaunchRecord → Option α) :
    List (α × Nat) :=
  (sortedKeys le (df.filterMap key)).map
    (fun k => (k, (df.filter (fun r => key r == some k)).length))

/-- The label pandas `rename(index={0: 'Failure', 1: 'Success'})` gives an
outcome value: 0 and 1 are renamed, any other value keeps its own name. -/
def outcomeName (c : Int) : String :=
  if c = 0 then "Failure" else if c = 1 then "Success" else toString c

/-- The pie-chart callback `update_pie` (lines 138-169), reduced to the data
behind the figure: the `(slice label, slice count)` pairs.
`ALL` groups the successful rows by site; a specific site groups that
site's rows by outcome, labelled Failure/Success. -/
def update_pie (df : List LaunchRecord) (selected_site : String) :
    List (String × Nat) :=
  if selected_site = "ALL" then
    groupbyCount strLe (df.filter (fun r => r.cls == some 1)) (·.launchSite)
  else
    (groupbyCount intLe
        (df.filter (fun r => r.launchSite == some selected_site))
        (·.cls)).map (fun kc => (outcomeName kc.1, kc.2))

/-- The payload-range half of the scatter mask (line 181):
`(payload >= lo) & (payload <= hi)`; false on a missing payload,
as both pandas comparisons are false on NaN. -/
def matchesRange (lo hi : ℚ) (r : LaunchRecord) : Bool :=
  match r.payloadMass with
  | some p => decide (lo ≤ p) && decide (p ≤ hi)
  | none => false

/-- The rows kept by the scatter callback (lines 179-186): the range mask,
strengthened by the site mask when a specific site is selected. -/
def update_scatter_filtered (df : List LaunchRecord) (selected_site : String)
    (lo hi : ℚ) : List LaunchRecord :=
  df.filter (fun r =>
    matchesRange lo hi r &&
      (if selected_site ≠ "ALL" then r.launchSite == some selected_site
       else true))

/-- The scatter callback `update_scatter` (lines 178-207), reduced to the
data behind the figure: each kept row becomes an (x, y) =
(payload mass, class) point. -/
def update_scatter (df : List LaunchRecord) (selected_site : String)
    (lo hi : ℚ) : List (Option ℚ × Option Int) :=
  (update_scatter_filtered df selected_site lo hi).map
    (fun r => (r.payloadMass, r.cls))

/-- Sum of the slice counts of a pie. -/
def pieSum (slices : List (String × Nat)) : Nat :=
  (slices.map (·.2)).sum

/-- Count of successful rows launched from site `s` (the spec's
"per-site counts of successful records"). -/
def succAt (df : List LaunchRecord) (s : String) : Nat :=
  ((df.filter (fun r => r.cls == some 1)).filter
    (fun r => r.launchSite == some s)).length

/-- Count of rows of site `s` whose outcome is `c` (the spec's
"Success vs Failure counts of exactly that site's records"). -/
def outcomeAt (df : List LaunchRecord) (s : String) (c : Int) : Nat :=
  ((df.filter (fun r => r.launchSite == some s)).filter
    (fun r => r.cls == some c)).length

/-- The rows a pie for `selected_site` draws from: the successful rows under
`ALL`, the selected site's rows otherwise. -/
def pieMatching (df : List LaunchRecord) (selected_site : String) :
    List LaunchRecord :=
  if selected_site = "ALL" then df.filter (fun r => r.cls == some 1)
  else df.filter (fun r => r.launchSite == some selected_site)

/-- Every outcome value in the table is 0 or 1 (or missing). -/
def binaryOutcomes (df : List LaunchRecord) : Prop :=
  ∀ r ∈ df, r.cls = none ∨ r.cls = some 0 ∨ r.cls = some 1

/-- The dashboard's reactive state: the immutable table, the two control
values, and the data of the two rendered figures. -/
structure AppState where
  table : List LaunchRecord
  selected_site : String
  payload_range : ℚ × ℚ
  pie : List (String × Nat)
  scatter : List (Option ℚ × Option Int)

/-- A user interaction with one of the two controls. -/
inductive UIEvent where
  | SetSite (site : String)
  | SetRange (lo hi : ℚ)

/-- One reactive cycle: the changed input is stored and the dependent
figures are recomputed from the loaded table, exactly as the Dash
callbacks fire (`update_pie` on a site change, `update_scatter` on both). -/
def step (st : AppState) (e : UIEvent) : AppState :=
  match e with
  | UIEvent.SetSite s =>
    { st with
      selected_site := s
      pie := update_pie st.table s
      scatter := update_scatter st.table s st.payload_range.1 st.payload_range.2 }
  | UIEvent.SetRange lo hi =>
    { st with
      payload_range := (lo, hi)
      scatter := update_scatter st.table st.selected_site lo hi }

/-- The 4-record table of the spec's scenarios: sites A,A,B,B and
outcomes 1,0,1,1, with positive payloads. -/
def exampleDf : List LaunchRecord :=
  [⟨some "A", some 1, some 100, some "v1.0"⟩,
   ⟨some "A", some 0, some 200, some "v1.0"⟩,
   ⟨some "B", some 1, some 300, some "v1.1"⟩,
   ⟨some "B", some 1, some 400, some "v1.1"⟩]

/-- Every payload mass present in the row is non-negative. -/
def payloadNonneg (r : LaunchRecord) : Bool :=
  match r.payloadMass with
  | some p => decide (0 ≤ p)
  | none => true

/-- A row of the real dataset shape whose payload mass is negative:
the cleanup step keeps it, refuting unconditional non-negativity. -/
def negPayloadRow : LaunchRecord :=
  ⟨some "CCAFS LC-40", some 1, some (-500), none⟩

/-- A row that is complete except for its booster category. -/
def boosterlessRow : LaunchRecord :=
  ⟨some "A", some 1, some 100, none⟩

/-! ### Helper lemmas -/

theorem listMin_ne_none {l : List ℚ} (h : l ≠ []) : listMin l ≠ none := by
  cases l with
  | nil => exact absurd rfl h
  | cons p ps =>
    unfold listMin
    cases hm : listMin ps with
    | none => simp
    | some q => simp

theorem listMax_ne_none {l : List ℚ} (h : l ≠ []) : listMax l ≠ none := by
  cases l with
  | nil => exact absurd rfl h
  | cons p ps =>
    unfold listMax
    cases hm : listMax ps with
    | none => simp
    | some q => simp

theorem listMin_le {l : List ℚ} :
    ∀ {m : ℚ}, listMin l = some m → ∀ p ∈ l, m ≤ p := by
  induction l with
  | nil => intro m h; simp [listMin] at h
  | cons q ps ih =>
    intro m h p hp
    unfold listMin at h
    cases hmin : listMin ps with
    | none =>
      rw [hmin] at h
      have hq : q = m := by simpa using h
      have hnil : ps = [] := by
        by_contra hne
        exact listMin_ne_none hne hmin
      subst hnil
      have hpq : p = q := by simpa using hp
      rw [hpq, ← hq]
    | some q' =>
      rw [hmin] at h
      have hmq : min q q' = m := by simpa using h
      rcases List.mem_cons.mp hp with heq | hmem
      · rw [heq, ← hmq]
        exact min_le_left q q'
      · have h1 : m ≤ q' := by
          rw [← hmq]
          exact min_le_right q q'
        exact le_trans h1 (ih hmin p hmem)

theorem listMax_ge {l : List ℚ} :
    ∀ {m : ℚ}, listMax l = some m → ∀ p ∈ l, p ≤ m := by
  induction l with
  | nil => intro m h; simp [listMax] at h
  | cons q ps ih =>
    intro m h p hp
    unfold listMax at h
    cases hmax : listMax ps with
    | none =>
      rw [hmax] at h
      have hq : q = m := by simpa using h
      have hnil : ps = [] := by
        by_contra hne
        exact listMax_ne_none hne hmax
      subst hnil
      have hpq : p = q := by simpa using hp
      rw [hpq, hq]
    | some q' =>
      rw [hmax] at h
      have hmq : max q q' = m := by simpa using h
      rcases List.mem_cons.mp hp with heq | hmem
      · rw [heq, ← hmq]
        exact le_max_left q q'
      · have h1 : q' ≤ m := by
          rw [← hmq]
          exact le_max_right q q'
        exact le_trans (ih hmax p hmem) h1

theorem cleanRecord_iff (r : LaunchRecord) :
    cleanRecord r = true ↔
      r.launchSite.isSome ∧ r.cls.isSome ∧ r.payloadMass.isSome := by
  unfold cleanRecord
  simp [Bool.and_eq_true, and_assoc]

/-! ### Claims -/

/-- Claim C2: the Correlation View keeps exactly the records whose payload
mass lies in `[lo, hi]` (inclusive), additionally requiring a matching site
when a specific site is selected, and projects each kept record to its
(payload, outcome) pair. -/
theorem update_scatter_filter_spec_C2 (df : List LaunchRecord)
    (site : String) (lo hi : ℚ) :
    (∀ r, r ∈ update_scatter_filtered df site lo hi ↔
      (r ∈ df ∧ (∃ p, r.payloadMass = some p ∧ lo ≤ p ∧ p ≤ hi) ∧
        (site ≠ "ALL" → r.launchSite = some site)))
    ∧ update_scatter df site lo hi =
        (update_scatter_filtered df site lo hi).map
          (fun r => (r.payloadMass, r.cls)) := by
  constructor
  · intro r
    rw [update_scatter_filtered, List.mem_filter]
    constructor
    · rintro ⟨hmem, hpred⟩
      simp only [Bool.and_eq_true] at hpred
      obtain ⟨hrange, hsite⟩ := hpred
      refine ⟨hmem, ?_, ?_⟩
      · unfold matchesRange at hrange
        cases hp : r.payloadMass with
        | none => rw [hp] at hrange; cases hrange
        | some p =>
          rw [hp] at hrange
          simp at hrange
          exact ⟨p, rfl, hrange.1, hrange.2⟩
      · intro hne
        rw [if_pos hne] at hsite
        exact eq_of_beq hsite
    · rintro ⟨hmem, ⟨p, hp, h1, h2⟩, hsite⟩
      refine ⟨hmem, ?_⟩
      have hr : matchesRange lo hi r = true := by
        unfold matchesRange
        rw [hp]
        simp [h1, h2]
      by_cases hs : site = "ALL"
      · simp [hr, hs]
      · simp [hr, hs, hsite hs]
  · rfl

theorem update_scatter_filter_spec_C2_witness :
    (⟨some "B", some 1, some 300, some "v1.1"⟩ : LaunchRecord) ∈
      update_scatter_filtered exampleDf "B" 100 350 :=
  ((update_scatter_filter_spec_C2 exampleDf "B" 100 350).1 _).mpr
    ⟨by decide, ⟨300, rfl, by decide, by decide⟩, fun _ => rfl⟩

/-- Claim C3: on a loaded (cleaned) table, filtering with `ALL` and the full
observed payload bounds `[payload_min, payload_max]` is the identity. -/
theorem update_scatter_full_range_C3 (rows : List LaunchRecord) (lo hi : ℚ)
    (hlo : payload_min (cleanup rows) = some lo)
    (hhi : payload_max (cleanup rows) = some hi) :
    update_scatter_filtered (cleanup rows) "ALL" lo hi = cleanup rows := by
  apply List.filter_eq_self.mpr
  intro r hr
  have hclean : cleanRecord r = true := (List.mem_filter.mp hr).2
  have hsome : r.payloadMass.isSome := ((cleanRecord_iff r).mp hclean).2.2
  obtain ⟨p, hp⟩ := Option.isSome_iff_exists.mp hsome
  have hpmem : p ∈ payloads (cleanup rows) :=
    List.mem_filterMap.mpr ⟨r, hr, hp⟩
  have h1 : lo ≤ p := listMin_le hlo p hpmem
  have h2 : p ≤ hi := listMax_ge hhi p hpmem
  have hrange : matchesRange lo hi r = true := by
    unfold matchesRange
    rw [hp]
    simp [h1, h2]
  simp [hrange]

theorem update_scatter_full_range_C3_witness :
    update_scatter_filtered (cleanup exampleDf) "ALL" 100 400 =
      cleanup exampleDf :=
  update_scatter_full_range_C3 exampleDf 100 400 (by decide) (by decide)

/-- Claim C4: a range containing no observed payload value filters out every
record, so the Correlation View is empty; in particular the spec's
`[0, 0]`-with-positive-payloads scenario yields zero points. -/
theorem update_scatter_out_of_range_C4 :
    (∀ (df : List LaunchRecord) (site : String) (lo hi : ℚ),
        (∀ p ∈ payloads df, ¬(lo ≤ p ∧ p ≤ hi)) →
        update_scatter df site lo hi = [])
    ∧ update_scatter exampleDf "ALL" 0 0 = [] := by
  constructor
  · intro df site lo hi h
    have hf : update_scatter_filtered df site lo hi = [] := by
      apply List.filter_eq_nil_iff.mpr
      intro r hr hpred
      simp only [Bool.and_eq_true] at hpred
      obtain ⟨hrange, _⟩ := hpred
      unfold matchesRange at hrange
      cases hp : r.payloadMass with
      | none => rw [hp] at hrange; cases hrange
      | some p =>
        rw [hp] at hrange
        simp at hrange
        exact h p (List.mem_filterMap.mpr ⟨r, hr, hp⟩) hrange
    rw [update_scatter, hf]
    rfl
  · decide

theorem update_scatter_out_of_range_C4_witness :
    update_scatter exampleDf "A" 500 600 = [] :=
  update_scatter_out_of_range_C4.1 exampleDf "A" 500 600 (by decide)

/-- Claim C6: loading fails with `DataUnavailable` exactly when the file at
the configured path is absent; when it exists, the (cleaned) table is
returned and no error is raised. -/
theorem load_spec_C6 (fs : String → Option (List LaunchRecord))
    (path : String) :
    ((loadTable fs path = Except.error LoadError.DataUnavailable) ↔
      fs path = none)
    ∧ (∀ rows, fs path = some rows →
        loadTable fs path = Except.ok (cleanup rows)) := by
  cases h : fs path with
  | none =>
    constructor
    · simp [loadTable, load, h, Except.map]
    · intro rows hrows
      cases hrows
  | some rows =>
    constructor
    · simp [loadTable, load, h, Except.map]
    · intro rows' h'
      cases h'
      simp [loadTable, load, h, Except.map]

theorem load_spec_C6_witness :
    loadTable (fun _ => none) "spacex_launch_dash.csv" =
      Except.error LoadError.DataUnavailable ∧
    loadTable (fun _ => some exampleDf) "spacex_launch_dash.csv" =
      Except.ok (cleanup exampleDf) :=
  ⟨(load_spec_C6 (fun _ => none) "spacex_launch_dash.csv").1.mpr rfl,
   (load_spec_C6 (fun _ => some exampleDf) "spacex_launch_dash.csv").2
     exampleDf rfl⟩

/-- Claim C7: cleanup drops exactly the rows with a missing site, outcome or
payload: the result is an in-order sublist of the input, membership is
presence of all three fields, and multiplicities are preserved for clean
rows and zero for dropped ones. -/
theorem cleanup_exact_C7 (df : List LaunchRecord) :
    (cleanup df).Sublist df
    ∧ (∀ r, r ∈ cleanup df ↔
        r ∈ df ∧
          (r.launchSite.isSome ∧ r.cls.isSome ∧ r.payloadMass.isSome))
    ∧ (∀ r, (cleanup df).count r =
        if cleanRecord r = true then df.count r else 0) := by
  refine ⟨List.filter_sublist df, ?_, ?_⟩
  · intro r
    rw [cleanup, List.mem_filter, cleanRecord_iff]
  · intro r
    by_cases h : cleanRecord r = true
    · rw [if_pos h, cleanup, List.count_filter h]
    · rw [if_neg h, cleanup]
      refine List.count_eq_zero.mpr fun hmem => h (List.mem_filter.mp hmem).2

/-- Claim C8 (counterexample): a file whose single row has payload `-500`
is accepted by the loader and the row is retained by cleanup, so the
loaded table does contain a negative payload mass. -/
theorem payload_nonneg_counterexample_C8 :
    loadTable (fun _ => some [negPayloadRow]) "spacex_launch_dash.csv" =
      Except.ok [negPayloadRow]
    ∧ negPayloadRow.payloadMass = some (-500)
    ∧ ¬(0 ≤ (-500 : ℚ)) := by
  refine ⟨rfl, rfl, by decide⟩

/-- Claim C8 (amended): after load every record's payload is present, and it
is non-negative provided every payload present in the raw input is
non-negative — the load step itself does not enforce non-negativity. -/
theorem cleanup_payload_nonneg_C8 (rows : List LaunchRecord)
    (h : ∀ r ∈ rows, payloadNonneg r = true) :
    ∀ r ∈ cleanup rows, ∃ p : ℚ, r.payloadMass = some p ∧ 0 ≤ p := by
  intro r hr
  have hclean : cleanRecord r = true := (List.mem_filter.mp hr).2
  have hmem : r ∈ rows := (List.mem_filter.mp hr).1
  have hsome : r.payloadMass.isSome := ((cleanRecord_iff r).mp hclean).2.2
  obtain ⟨p, hp⟩ := Option.isSome_iff_exists.mp hsome
  have hpos := h r hmem
  unfold payloadNonneg at hpos
  rw [hp] at hpos
  simp at hpos
  exact ⟨p, hp, hpos⟩

theorem cleanup_payload_nonneg_C8_witness :
    ∃ p : ℚ,
      (⟨some "A", some 1, some 100, some "v1.0"⟩ : LaunchRecord).payloadMass =
        some p ∧ 0 ≤ p :=
  cleanup_payload_nonneg_C8 exampleDf (by decide) _ (by decide)

/-- Claim C9: a reactive cycle triggered by either control never changes the
loaded table — the callbacks only recompute the rendered figures. -/
theorem step_preserves_table_C9 (st : AppState) (e : UIEvent) :
    (step st e).table = st.table := by
  cases e <;> rfl

/-- Claim C10: a record missing only its booster category passes cleanup,
and it appears in the Correlation View's filtered output whenever its
payload is in range and its site matches the selection. -/
theorem booster_missing_retained_C10 (rows : List LaunchRecord)
    (r : LaunchRecord) (hmem : r ∈ rows) (hbooster : r.boosterCategory = none)
    (hsite : r.launchSite.isSome) (hcls : r.cls.isSome)
    (hpay : r.payloadMass.isSome) :
    r ∈ cleanup rows ∧
    ∀ site lo hi, matchesRange lo hi r = true →
      (site = "ALL" ∨ r.launchSite = some site) →
      r ∈ update_scatter_filtered (cleanup rows) site lo hi := by
  have hclean : cleanRecord r = true :=
    (cleanRecord_iff r).mpr ⟨hsite, hcls, hpay⟩
  have h1 : r ∈ cleanup rows := List.mem_filter.mpr ⟨hmem, hclean⟩
  refine ⟨h1, ?_⟩
  intro site lo hi hrange hsitecond
  apply List.mem_filter.mpr
  refine ⟨h1, ?_⟩
  rw [hrange, Bool.true_and]
  by_cases hs : site = "ALL"
  · simp [hs]
  · cases hsitecond with
    | inl h => exact absurd h hs
    | inr h => simp [hs, h]

theorem booster_missing_retained_C10_witness :
    boosterlessRow ∈
      update_scatter_filtered (cleanup [boosterlessRow]) "ALL" 0 200 :=
  (booster_missing_retained_C10 [boosterlessRow] boosterlessRow (by decide)
      rfl (by decide) (by decide) (by decide)).2
    "ALL" 0 200 (by decide) (Or.inl rfl)

/-! ### Groupby counting lemmas -/

theorem length_filter_key_eq_count {α β : Type} [DecidableEq α]
    (l : List β) (key : β → Option α) (k : α) :
    (l.filter (fun r => key r == some k)).length =
      (l.filterMap key).count k := by
  induction l with
  | nil => simp
  | cons r l ih =>
    cases h : key r with
    | none =>
      simp [List.filter_cons, List.filterMap_cons, h, ih]
    | some k' =>
      by_cases hk : k' = k
      · subst hk
        simp [List.filter_cons, List.filterMap_cons, h, ih, List.count_cons]
      · simp [List.filter_cons, List.filterMap_cons, h, ih,
          List.count_cons, hk]

theorem sum_snd_groupbyCount {α : Type} [DecidableEq α] (le : α → α → Bool)
    (df : List LaunchRecord) (key : LaunchRecord → Option α) :
    ((groupbyCount le df key).map (fun kc => kc.2)).sum =
      (df.filterMap key).length := by
  unfold groupbyCount sortedKeys
  rw [List.map_map]
  have h1 : ((fun kc : α × Nat => kc.2) ∘ fun k =>
      (k, (df.filter (fun r => key r == some k)).length)) =
      fun k => (df.filterMap key).count k := by
    funext k
    exact length_filter_key_eq_count df key k
  rw [h1]
  have hperm := List.perm_insertionSort (fun a b => le a b = true)
    (df.filterMap key).dedup
  rw [(hperm.map _).sum_eq]
  exact List.sum_map_count_dedup_eq_length _

theorem mem_groupbyCount {α : Type} [DecidableEq α] (le : α → α → Bool)
    (df : List LaunchRecord) (key : LaunchRecord → Option α) (k : α)
    (n : Nat) :
    (k, n) ∈ groupbyCount le df key ↔
      (n = (df.filter (fun r => key r == some k)).length ∧
        0 < (df.filter (fun r => key r == some k)).length) := by
  unfold groupbyCount sortedKeys
  rw [List.mem_map]
  constructor
  · rintro ⟨k', hk', heq⟩
    have h1 : k' = k := congrArg Prod.fst heq
    subst h1
    have h2 : (df.filter (fun r => key r == some k')).length = n :=
      congrArg Prod.snd heq
    refine ⟨h2.symm, ?_⟩
    have hk : k' ∈ df.filterMap key :=
      List.mem_dedup.mp ((List.mem_insertionSort _).mp hk')
    rw [length_filter_key_eq_count]
    exact List.count_pos_iff.mpr hk
  · rintro ⟨hn, hpos⟩
    refine ⟨k, ?_, ?_⟩
    · apply (List.mem_insertionSort _).mpr
      apply List.mem_dedup.mpr
      rw [length_filter_key_eq_count] at hpos
      exact List.count_pos_iff.mp hpos
    · rw [hn]

theorem length_filterMap_of_isSome {α β : Type} (l : List α)
    (f : α → Option β) (h : ∀ x ∈ l, (f x).isSome) :
    (l.filterMap f).length = l.length := by
  induction l with
  | nil => rfl
  | cons a l ih =>
    rw [List.filterMap_cons]
    cases hf : f a with
    | none => exact absurd (h a (List.mem_cons_self a l)) (by simp [hf])
    | some b =>
      simp only [List.length_cons]
      rw [ih (fun x hx => h x (List.mem_cons_of_mem a hx))]

theorem outcome_pairs_mem (df : List LaunchRecord) (site : String) (n : Nat)
    (c : Int) (hne : site ≠ "ALL") (hbin : binaryOutcomes df)
    (hc : c = 0 ∨ c = 1) :
    ((outcomeName c, n) ∈ update_pie df site ↔
      (n = outcomeAt df site c ∧ 0 < outcomeAt df site c)) := by
  have hpie : update_pie df site =
      (groupbyCount intLe (df.filter (fun r => r.launchSite == some site))
          (·.cls)).map (fun kc => (outcomeName kc.1, kc.2)) := by
    unfold update_pie
    rw [if_neg hne]
  rw [hpie, List.mem_map]
  constructor
  · rintro ⟨⟨c', m⟩, hmem, heq⟩
    have hname : outcomeName c' = outcomeName c := congrArg Prod.fst heq
    have hm : m = n := congrArg Prod.snd heq
    have h2 := (mem_groupbyCount intLe _ (·.cls) c' m).mp hmem
    obtain ⟨r, hr⟩ := List.exists_mem_of_ne_nil _ (List.length_pos.mp h2.2)
    have hrcls : r.cls = some c' := eq_of_beq (List.mem_filter.mp hr).2
    have hrdf : r ∈ df := (List.mem_filter.mp (List.mem_filter.mp hr).1).1
    have hc' : c' = 0 ∨ c' = 1 := by
      rcases hbin r hrdf with h0 | h0 | h0
      · rw [h0] at hrcls
        cases hrcls
      · rw [h0] at hrcls
        exact Or.inl (Option.some.inj hrcls).symm
      · rw [h0] at hrcls
        exact Or.inr (Option.some.inj hrcls).symm
    have hcc : c' = c := by
      rcases hc' with rfl | rfl <;> rcases hc with rfl | rfl <;>
        first
        | rfl
        | (exfalso; revert hname; decide)
    subst hcc
    rw [← hm]
    exact ⟨h2.1, h2.2⟩
  · rintro ⟨hn, hpos⟩
    exact ⟨(c, n), (mem_groupbyCount intLe _ (·.cls) c n).mpr ⟨hn, hpos⟩, rfl⟩

/-! ### Distribution View claims -/

/-- Claim C1: under `ALL`, the pie's slices are exactly the per-site counts
of successful records (a site appears iff it has a success, with its exact
count); under a specific site (with binary outcomes, as the data model
requires), the slices are exactly that site's Success and Failure counts.
The spec's 4-record scenario renders A:1, B:2. -/
theorem update_pie_spec_C1 :
    (∀ (df : List LaunchRecord) (s : String) (n : Nat),
        (s, n) ∈ update_pie df "ALL" ↔ (n = succAt df s ∧ 0 < succAt df s))
    ∧ (∀ (df : List LaunchRecord) (site : String) (n : Nat),
        site ≠ "ALL" → binaryOutcomes df →
        ((("Success", n) ∈ update_pie df site ↔
            (n = outcomeAt df site 1 ∧ 0 < outcomeAt df site 1))
         ∧ (("Failure", n) ∈ update_pie df site ↔
            (n = outcomeAt df site 0 ∧ 0 < outcomeAt df site 0))))
    ∧ update_pie exampleDf "ALL" = [("A", 1), ("B", 2)] := by
  refine ⟨?_, ?_, by decide⟩
  · intro df s n
    have hpie : update_pie df "ALL" =
        groupbyCount strLe (df.filter (fun r => r.cls == some 1))
          (·.launchSite) := by
      unfold update_pie
      rw [if_pos rfl]
    rw [hpie]
    exact mem_groupbyCount strLe _ (·.launchSite) s n
  · intro df site n hne hbin
    constructor
    · have e1 : outcomeName 1 = "Success" := by decide
      have h := outcome_pairs_mem df site n 1 hne hbin (Or.inr rfl)
      rw [e1] at h
      exact h
    · have e0 : outcomeName 0 = "Failure" := by decide
      have h := outcome_pairs_mem df site n 0 hne hbin (Or.inl rfl)
      rw [e0] at h
      exact h

theorem update_pie_spec_C1_witness :
    ("Success", 1) ∈ update_pie exampleDf "A" := by
  have h := (update_pie_spec_C1.2.1 exampleDf "A" 1 (by decide)
      (by unfold binaryOutcomes; decide)).1
  exact h.mpr (by decide)

/-- Claim C5: for any selected site, the slice counts of the Distribution
View sum to the number of records the view draws from: the successful
records under `ALL`, the selected site's records otherwise. -/
theorem update_pie_counts_sum_C5 (df : List LaunchRecord) (site : String)
    (hclean : ∀ r ∈ df, cleanRecord r = true) :
    pieSum (update_pie df site) = (pieMatching df site).length := by
  unfold update_pie pieMatching pieSum
  by_cases hs : site = "ALL"
  · rw [if_pos hs, if_pos hs, sum_snd_groupbyCount]
    apply length_filterMap_of_isSome
    intro r hr
    have h := hclean r (List.mem_filter.mp hr).1
    exact ((cleanRecord_iff r).mp h).1
  · rw [if_neg hs, if_neg hs, List.map_map]
    have hcomp : ((fun kc : String × Nat => kc.2) ∘
        fun kc : Int × Nat => (outcomeName kc.1, kc.2)) =
        (fun kc : Int × Nat => kc.2) := rfl
    rw [hcomp, sum_snd_groupbyCount]
    apply length_filterMap_of_isSome
    intro r hr
    have h := hclean r (List.mem_filter.mp hr).1
    exact ((cleanRecord_iff r).mp h).2.1

theorem update_pie_counts_sum_C5_witness :
    pieSum (update_pie exampleDf "ALL") =
      (pieMatching exampleDf "ALL").length :=
  update_pie_counts_sum_C5 exampleDf "ALL" (by decide)
